import Mathlib

/-!
Shallow embedding of the scan-lifecycle and webhook core of khulnasoft/reconpoint.

The definitions below are translated from:
* `web/services/scan_service.py` — `ScanService.create_scan`,
  `ScanService.update_scan_status`, `ScanService.abort_scan`, and the
  progress computation inside `ScanService.get_scan_details`;
* `web/reconPoint/webhook_manager.py` — `WebhookManager.send_webhook`,
  `WebhookManager._generate_signature`, `WebhookManager.verify_signature`,
  and `WebhookSubscription.add_subscription` / `remove_subscription`.

Conventions: Python `str` values appear as `String` (or `List Char` where
character-level reasoning is needed), byte strings as `List Nat` with values
below 256, timestamps as `Nat` passed in explicitly (`timezone.now()` /
`datetime.utcnow()` become a `now` argument), and Django model instances as
plain structures.  Database rows live in a `List`; `objects.get` becomes
`List.find?` on the primary key and `save()` writes the row back by id.
Fields of `ScanHistory` that none of the examined operations read or write
(`cfg_*` configuration blobs, result counters) are omitted.
-/

namespace ReconPoint

/-- One `ScanHistory` row, as read and written by `scan_service.py`.
Status codes follow the source's docstring: `-1` pending, `0` failed,
`1` running, `2` completed, `3` aborted. -/
structure Scan where
  id : Nat
  domainId : Nat
  scanTypeId : Nat
  scanStatus : Int
  startScanDate : Option Nat
  stopScanDate : Option Nat
  errorMessage : Option String
  initiatedBy : Option Nat
  abortedBy : Option Nat
  celeryIds : List Nat
  tasks : List String
  deriving Repr, DecidableEq

/-- The slice of the database that `ScanService` touches: `Domain` rows
(id and `start_scan_date`), `EngineType` rows (id and task list), and
`ScanHistory` rows.  `nextScanId` models the autoincrementing primary key. -/
structure SvcState where
  domains : List (Nat × Option Nat)
  engines : List (Nat × List String)
  scans : List Scan
  nextScanId : Nat
  deriving Repr, DecidableEq

/-- The two exception families raised by `scan_service.py`:
`ResourceNotFoundException(resource, id)` and `ValidationException(msg)`
(the message text itself is not modelled). -/
inductive SvcError where
  | resourceNotFound (resource : String) (id : Nat)
  | validation
  deriving Repr, DecidableEq

/-- `ScanService.create_scan` (scan_service.py lines 21–94): validate that the
domain and engine exist, reject when a scan for the same domain has
`scan_status` in `[-1, 1]`, otherwise insert a new row with status `-1`
(pending) and stamp the domain's `start_scan_date`. -/
def createScan (st : SvcState) (domainId scanTypeId user now : Nat) :
    Except SvcError (SvcState × Scan) :=
  match st.domains.find? fun d => d.1 = domainId with
  | none => .error (.resourceNotFound "Domain" domainId)
  | some _ =>
    match st.engines.find? fun e => e.1 = scanTypeId with
    | none => .error (.resourceNotFound "EngineType" scanTypeId)
    | some eng =>
      let runningScans := st.scans.any fun s =>
        s.domainId = domainId && (s.scanStatus = -1 || s.scanStatus = 1)
      if runningScans then
        .error .validation
      else
        let scan : Scan :=
          { id := st.nextScanId, domainId := domainId, scanTypeId := scanTypeId,
            scanStatus := -1, startScanDate := some now, stopScanDate := none,
            errorMessage := none, initiatedBy := some user, abortedBy := none,
            celeryIds := [], tasks := eng.2 }
        let domains := st.domains.map fun d => if d.1 = domainId then (d.1, some now) else d
        .ok ({ st with
                 scans := st.scans ++ [scan],
                 domains := domains,
                 nextScanId := st.nextScanId + 1 }, scan)

/-- Python truthiness of the `error_message` argument: `if error_message:` is
taken only when the value is neither `None` nor the empty string. -/
def truthyMsg : Option String → Bool
  | none => false
  | some s => !s.isEmpty

/-- The field updates `update_scan_status` performs on the fetched row
(scan_service.py lines 224–233): set `scan_status`; set `error_message`
(truncated to 300 characters) only when the argument is truthy; set
`stop_scan_date` only when the new status is terminal (`0`, `2`, `3`) and no
stop date is recorded yet. -/
def applyStatus (scan : Scan) (status : Int) (errorMessage : Option String) (now : Nat) :
    Scan :=
  let s1 := { scan with scanStatus := status }
  let s2 :=
    if truthyMsg errorMessage then
      { s1 with errorMessage := some ((errorMessage.getD "").take 300) }
    else s1
  if (status = 0 || status = 2 || status = 3) && scan.stopScanDate = none then
    { s2 with stopScanDate := some now }
  else s2

/-- `ScanService.update_scan_status` (scan_service.py lines 192–237): reject a
status outside `{-1, 0, 1, 2, 3}`, fetch the row, apply `applyStatus`, save. -/
def updateScanStatus (st : SvcState) (scanId : Nat) (status : Int)
    (errorMessage : Option String) (now : Nat) : Except SvcError (SvcState × Scan) :=
  if !(status = -1 || status = 0 || status = 1 || status = 2 || status = 3) then
    .error .validation
  else
    match st.scans.find? fun s => s.id = scanId with
    | none => .error (.resourceNotFound "ScanHistory" scanId)
    | some scan =>
      let scan' := applyStatus scan status errorMessage now
      .ok ({ st with scans := st.scans.map fun s => if s.id = scanId then scan' else s },
           scan')

/-- `ScanService.abort_scan` (scan_service.py lines 239–284): fetch the row,
reject unless its status is `-1` or `1`, request revocation of every celery id
(revocation failures are only logged — `cancelOk` models the per-handle
outcome and never affects the result), then set status `3`, overwrite
`stop_scan_date` with now, and record `aborted_by`.  Returns the updated
state, the updated scan, the handles whose cancellation was requested, and the
handles whose cancellation failed (the logged ones). -/
def abortScan (st : SvcState) (scanId user : Nat) (cancelOk : Nat → Bool) (now : Nat) :
    Except SvcError (SvcState × Scan × List Nat × List Nat) :=
  match st.scans.find? fun s => s.id = scanId with
  | none => .error (.resourceNotFound "ScanHistory" scanId)
  | some scan =>
    if !(scan.scanStatus = -1 || scan.scanStatus = 1) then
      .error .validation
    else
      let requested := scan.celeryIds
      let failures := scan.celeryIds.filter fun h => !(cancelOk h)
      let scan' :=
        { scan with
          scanStatus := 3,
          stopScanDate := some now,
          abortedBy := some user }
      .ok ({ st with scans := st.scans.map fun s => if s.id = scanId then scan' else s },
           scan', requested, failures)

/-- States reachable from an empty scan table through the three service
operations, with arbitrary arguments and clock values.  Failing calls leave
the state untouched, so only successful calls appear as steps. -/
inductive Reachable : SvcState → Prop where
  | init (domains : List (Nat × Option Nat)) (engines : List (Nat × List String)) :
      Reachable { domains := domains, engines := engines, scans := [], nextScanId := 0 }
  | create {st st' : SvcState} {s : Scan} (d e u now : Nat) :
      Reachable st → createScan st d e u now = .ok (st', s) → Reachable st'
  | update {st st' : SvcState} {s : Scan} (scanId : Nat) (c : Int) (em : Option String)
      (now : Nat) :
      Reachable st → updateScanStatus st scanId c em now = .ok (st', s) → Reachable st'
  | abort {st st' : SvcState} {s : Scan} {req fail : List Nat} (scanId u : Nat)
      (cancelOk : Nat → Bool) (now : Nat) :
      Reachable st → abortScan st scanId u cancelOk now = .ok (st', s, req, fail) →
      Reachable st'

/-- One `ScanActivity` row as consumed by the progress computation in
`get_scan_details` (name, status, time; status `2` means completed). -/
structure ScanActivity where
  name : String
  status : Int
  time : Nat
  deriving Repr, DecidableEq

/-- Round-half-to-even to an integer, the tie-breaking rule of Python's
`round` (applied here to the exact rational value of the percentage). -/
def roundHalfEven (q : ℚ) : ℤ :=
  let f := q - ⌊q⌋
  if f < 1/2 then ⌊q⌋
  else if 1/2 < f then ⌊q⌋ + 1
  else if ⌊q⌋ % 2 = 0 then ⌊q⌋ else ⌊q⌋ + 1

/-- Python's `round(x, 2)` on the exact rational value. -/
def round2 (q : ℚ) : ℚ := (roundHalfEven (q * 100) : ℚ) / 100

/-- The progress block of `ScanService.get_scan_details` (scan_service.py
lines 135–138 and 157–161): `total_tasks = len(scan.tasks)`,
`completed_tasks = activities.filter(status=2).count()` (no deduplication),
`percentage = completed / total * 100` when `total > 0` else `0`, rounded to
two decimals.  Returns `(total_tasks, completed_tasks, percentage)`. -/
def computeProgress (tasks : List String) (activities : List ScanActivity) :
    Nat × Nat × ℚ :=
  let totalTasks := tasks.length
  let completedTasks := (activities.filter fun a => a.status = 2).length
  let pct : ℚ := if totalTasks > 0 then (completedTasks : ℚ) / (totalTasks : ℚ) * 100 else 0
  (totalTasks, completedTasks, round2 pct)

/-- Stated from the spec's words, for comparison with `computeProgress`: the
number of *distinct* step names among completed activity entries ("completed =
count of ActivityEntry where step_status == Completed, deduplicated by
step_name"). -/
def specDistinctCompleted (activities : List ScanActivity) : Nat :=
  ((activities.filter fun a => a.status = 2).map fun a => a.name).dedup.length

/-- The terminal status codes of scan_service.py: failed, completed, aborted. -/
def isTerminalCode (c : Int) : Prop := c = 0 ∨ c = 2 ∨ c = 3

/-- The status codes `update_scan_status` accepts. -/
def isValidCode (c : Int) : Prop := c = -1 ∨ c = 0 ∨ c = 1 ∨ c = 2 ∨ c = 3

/-- How many scans of domain `d` are non-terminal (pending or running), the
quantity the concurrency guard of `create_scan` is about. -/
def countNonTerminal (st : SvcState) (d : Nat) : Nat :=
  (st.scans.filter fun s => s.domainId = d && (s.scanStatus = -1 || s.scanStatus = 1)).length

/-- A one-scan fixture used to instantiate theorems at concrete inputs. -/
def sampleScan (c : Int) (stop : Option Nat) : Scan :=
  { id := 0, domainId := 1, scanTypeId := 1, scanStatus := c, startScanDate := some 0,
    stopScanDate := stop, errorMessage := some "boom", initiatedBy := some 7,
    abortedBy := none, celeryIds := [11, 12], tasks := ["subdomain_discovery", "port_scan"] }

/-- A one-domain, one-engine, one-scan database fixture. -/
def sampleState (c : Int) (stop : Option Nat) : SvcState :=
  { domains := [(1, none)], engines := [(1, ["subdomain_discovery", "port_scan"])],
    scans := [sampleScan c stop], nextScanId := 1 }

lemma applyStatus_scanStatus (scan : Scan) (c : Int) (em : Option String) (now : Nat) :
    (applyStatus scan c em now).scanStatus = c := by
  unfold applyStatus
  split <;> split <;> rfl

lemma applyStatus_errorMessage (scan : Scan) (c : Int) (em : Option String) (now : Nat)
    (h : truthyMsg em = false) :
    (applyStatus scan c em now).errorMessage = scan.errorMessage := by
  unfold applyStatus
  rw [h]
  simp only [Bool.false_eq_true, if_false]
  split <;> rfl

lemma applyStatus_stop_of_ne_none (scan : Scan) (c : Int) (em : Option String) (now : Nat)
    (h : scan.stopScanDate ≠ none) :
    (applyStatus scan c em now).stopScanDate = scan.stopScanDate := by
  unfold applyStatus
  have hc : (decide (scan.stopScanDate = none)) = false := by
    simpa using h
  rw [hc, Bool.and_false, if_neg (by simp)]
  split <;> rfl

lemma applyStatus_stop_of_nonterminal (scan : Scan) (c : Int) (em : Option String)
    (now : Nat) (h : ¬ isTerminalCode c) :
    (applyStatus scan c em now).stopScanDate = scan.stopScanDate := by
  unfold applyStatus
  have hc : (decide (c = 0) || decide (c = 2) || decide (c = 3)) = false := by
    rcases Decidable.em (c = 0) with h0 | h0
    · exact absurd (Or.inl h0) h
    rcases Decidable.em (c = 2) with h2 | h2
    · exact absurd (Or.inr (Or.inl h2)) h
    rcases Decidable.em (c = 3) with h3 | h3
    · exact absurd (Or.inr (Or.inr h3)) h
    simp [h0, h2, h3]
  rw [hc, Bool.false_and, if_neg (by simp)]
  split <;> rfl

lemma applyStatus_stop_of_terminal (scan : Scan) (c : Int) (em : Option String)
    (now : Nat) (h : isTerminalCode c) :
    (applyStatus scan c em now).stopScanDate ≠ none := by
  unfold applyStatus
  have hc : (decide (c = 0) || decide (c = 2) || decide (c = 3)) = true := by
    rcases h with h | h | h <;> simp [h]
  rcases Decidable.em (scan.stopScanDate = none) with hs | hs
  · have hp : ((decide (c = 0) || decide (c = 2) || decide (c = 3)) &&
        decide (scan.stopScanDate = none)) = true := by
      rw [hc]; simp [hs]
    rw [if_pos hp]
    split <;> simp
  · have hs' : (decide (scan.stopScanDate = none)) = false := by simpa using hs
    rw [hc, hs', Bool.and_false, if_neg (by simp)]
    split <;> simpa using hs

lemma createScan_ok_inv {st : SvcState} {d e u now : Nat} {st' : SvcState} {s' : Scan}
    (hok : createScan st d e u now = .ok (st', s')) :
    st'.scans = st.scans ++ [s'] ∧ s'.scanStatus = -1 ∧ s'.domainId = d ∧
      (st.scans.any fun s =>
        s.domainId = d && (s.scanStatus = -1 || s.scanStatus = 1)) = false := by
  unfold createScan at hok
  split at hok
  · simp at hok
  · split at hok
    · simp at hok
    · dsimp only at hok
      cases hr : st.scans.any fun s =>
          s.domainId = d && (s.scanStatus = -1 || s.scanStatus = 1)
      · rw [hr] at hok
        rw [if_neg (by simp)] at hok
        simp only [Except.ok.injEq, Prod.mk.injEq] at hok
        obtain ⟨h1, h2⟩ := hok
        subst h1
        subst h2
        exact ⟨rfl, rfl, rfl, rfl⟩
      · rw [hr] at hok
        rw [if_pos rfl] at hok
        simp at hok

lemma updateScanStatus_ok_inv {st : SvcState} {scanId : Nat} {c : Int} {em : Option String}
    {now : Nat} {st' : SvcState} {s' : Scan}
    (hok : updateScanStatus st scanId c em now = .ok (st', s')) :
    ∃ old, st.scans.find? (fun s => s.id = scanId) = some old ∧
      s' = applyStatus old c em now ∧
      st'.scans = st.scans.map fun s =>
        if s.id = scanId then applyStatus old c em now else s := by
  unfold updateScanStatus at hok
  split at hok
  · simp at hok
  · cases hfind : st.scans.find? fun s => s.id = scanId
    · rw [hfind] at hok
      simp at hok
    · rw [hfind] at hok
      dsimp only at hok
      simp only [Except.ok.injEq, Prod.mk.injEq] at hok
      obtain ⟨h1, h2⟩ := hok
      subst h1
      subst h2
      exact ⟨_, rfl, rfl, rfl⟩

lemma abortScan_ok_inv {st : SvcState} {scanId user : Nat} {cancelOk : Nat → Bool}
    {now : Nat} {st' : SvcState} {s' : Scan} {req failed : List Nat}
    (hok : abortScan st scanId user cancelOk now = .ok (st', s', req, failed)) :
    ∃ old, st.scans.find? (fun s => s.id = scanId) = some old ∧
      s' = { old with scanStatus := 3, stopScanDate := some now, abortedBy := some user } ∧
      st'.scans = st.scans.map fun s =>
        if s.id = scanId then
          { old with scanStatus := 3, stopScanDate := some now, abortedBy := some user }
        else s := by
  unfold abortScan at hok
  cases hfind : st.scans.find? fun s => s.id = scanId
  · rw [hfind] at hok
    simp at hok
  · rw [hfind] at hok
    dsimp only at hok
    split at hok
    · simp at hok
    · simp only [Except.ok.injEq, Prod.mk.injEq] at hok
      obtain ⟨h1, h2, -, -⟩ := hok
      subst h1
      subst h2
      exact ⟨_, rfl, rfl, rfl⟩

/-- C5 counterexample.  Because `update_scan_status` accepts the transition
Completed → Running without clearing `stop_scan_date`, a reachable state has a
Running scan with `stop_scan_date` set, refuting "`stopped_at` non-null iff
status terminal"; and `abort_scan` then overwrites that `stop_scan_date`
(from `some 10` to `some 30`), refuting "written exactly once, never
overwritten". -/
theorem c5_counterexample :
    (∃ st, Reachable st ∧ ∃ s ∈ st.scans, s.scanStatus = 1 ∧ s.stopScanDate = some 10) ∧
    (∃ st st' s' req failed,
       Reachable st ∧ (∃ s ∈ st.scans, s.stopScanDate = some 10) ∧
       abortScan st 0 9 (fun _ => true) 30 = .ok (st', s', req, failed) ∧
       s'.stopScanDate = some 30) := by
  have h0 := Reachable.init [(1, none)] [(1, ["subdomain_discovery"])]
  have h1 := Reachable.create 1 1 7 0 h0 rfl
  have h2 := Reachable.update 0 2 none 10 h1 rfl
  have h3 := Reachable.update 0 1 none 20 h2 rfl
  refine ⟨⟨_, h3, by decide⟩, ⟨_, _, _, _, _, h3, by decide, rfl, rfl⟩⟩

/-- C5 (amended).  In every reachable state a terminal scan has a non-null
`stop_scan_date`, and `update_scan_status` never overwrites an already-set
`stop_scan_date` nor writes one on a non-terminal status — but the converse
direction of the claimed "iff" fails (see the counterexample) because a
terminal scan can be moved back to Pending/Running with its stop date kept,
and a later `abort_scan` overwrites the stop date. -/
theorem c5_stop_date_amended :
    (∀ st, Reachable st → ∀ s ∈ st.scans, isTerminalCode s.scanStatus →
       s.stopScanDate ≠ none) ∧
    (∀ (scan : Scan) (c : Int) (em : Option String) (now : Nat),
       scan.stopScanDate ≠ none ∨ ¬ isTerminalCode c →
       (applyStatus scan c em now).stopScanDate = scan.stopScanDate) := by
  constructor
  · intro st h
    induction h with
    | init doms engs =>
        intro s hs hterm
        simp at hs
    | create d e u now hR hok ih =>
        intro s hs hterm
        obtain ⟨hsc, hstat, -, -⟩ := createScan_ok_inv hok
        rw [hsc] at hs
        rcases List.mem_append.1 hs with h | h
        · exact ih s h hterm
        · rw [List.mem_singleton.1 h] at hterm
          rw [hstat] at hterm
          rcases hterm with h' | h' | h' <;> omega
    | update scanId c em now hR hok ih =>
        intro s hs hterm
        obtain ⟨old, hfind, -, hsc⟩ := updateScanStatus_ok_inv hok
        rw [hsc] at hs
        obtain ⟨x, hx, hxe⟩ := List.mem_map.1 hs
        by_cases hid : x.id = scanId
        · rw [if_pos hid] at hxe
          subst hxe
          rw [applyStatus_scanStatus] at hterm
          exact applyStatus_stop_of_terminal old c em now hterm
        · rw [if_neg hid] at hxe
          subst hxe
          exact ih x hx hterm
    | abort scanId u cancelOk now hR hok ih =>
        intro s hs hterm
        obtain ⟨old, hfind, -, hsc⟩ := abortScan_ok_inv hok
        rw [hsc] at hs
        obtain ⟨x, hx, hxe⟩ := List.mem_map.1 hs
        by_cases hid : x.id = scanId
        · rw [if_pos hid] at hxe
          subst hxe
          simp
        · rw [if_neg hid] at hxe
          subst hxe
          exact ih x hx hterm
  · intro scan c em now h
    rcases h with h | h
    · exact applyStatus_stop_of_ne_none scan c em now h
    · exact applyStatus_stop_of_nonterminal scan c em now h

/-- C5 witness: a concrete reachable state whose completed scan has its stop
date set, and a concrete non-terminal status update preserving a set stop
date. -/
theorem c5_witness :
    ({ id := 0, domainId := 1, scanTypeId := 1, scanStatus := 2, startScanDate := some 0,
       stopScanDate := some 10, errorMessage := none, initiatedBy := some 7,
       abortedBy := none, celeryIds := [], tasks := ["subdomain_discovery"] } : Scan).stopScanDate
      ≠ none ∧
    (applyStatus (sampleScan 1 (some 5)) 1 none 9).stopScanDate =
      (sampleScan 1 (some 5)).stopScanDate := by
  have h0 := Reachable.init [(1, none)] [(1, ["subdomain_discovery"])]
  have h1 := Reachable.create 1 1 7 0 h0 rfl
  have h2 := Reachable.update 0 2 none 10 h1 rfl
  exact ⟨c5_stop_date_amended.1 _ h2 _ (by decide) (Or.inr (Or.inl rfl)),
    c5_stop_date_amended.2 (sampleScan 1 (some 5)) 1 none 9 (Or.inl (by decide))⟩

/-- C2. `update_scan_status` does not reject any in-range transition: on the
fixture whose single scan is Completed (status `2`), a request to move it to
Running (status `1`) succeeds and changes the status, where the claim expects
an `InvalidTransitionError`. -/
theorem c2_counterexample :
    ∃ st' s', updateScanStatus (sampleState 2 (some 5)) 0 1 none 20 = .ok (st', s') ∧
      s'.scanStatus = 1 :=
  ⟨_, _, rfl, rfl⟩

/-- C2 (amended). `update_scan_status` validates only that the requested code
is one of `{-1, 0, 1, 2, 3}`: any in-range status is applied (even a move out
of a terminal status), an out-of-range status raises a validation error, and
re-applying the very status a scan already has — given its stop date is
already set and no error message is passed — leaves the record unchanged. -/
theorem c2_update_scan_status_amended
    (st : SvcState) (scanId : Nat) (c : Int) (em : Option String) (now : Nat) (old : Scan)
    (hfind : st.scans.find? (fun s => s.id = scanId) = some old) :
    (isValidCode c →
       updateScanStatus st scanId c em now =
         .ok ({ st with
                scans := st.scans.map fun s =>
                  if s.id = scanId then applyStatus old c em now else s },
              applyStatus old c em now)) ∧
    (¬ isValidCode c → updateScanStatus st scanId c em now = .error .validation) ∧
    (old.scanStatus = c → old.stopScanDate ≠ none → em = none →
       applyStatus old c em now = old) := by
  refine ⟨?_, ?_, ?_⟩
  · intro hc
    have hb : (!(decide (c = -1) || decide (c = 0) || decide (c = 1) || decide (c = 2) ||
        decide (c = 3))) = false := by
      rcases hc with h | h | h | h | h <;> simp [h]
    unfold updateScanStatus
    rw [hb, if_neg (by simp), hfind]
  · intro hc
    unfold isValidCode at hc
    push_neg at hc
    obtain ⟨h1, h2, h3, h4, h5⟩ := hc
    have hb : (!(decide (c = -1) || decide (c = 0) || decide (c = 1) || decide (c = 2) ||
        decide (c = 3))) = true := by
      simp [h1, h2, h3, h4, h5]
    unfold updateScanStatus
    rw [if_pos hb]
  · intro hstat hstop hem
    subst hem
    unfold applyStatus
    have hc : ((decide (c = 0) || decide (c = 2) || decide (c = 3)) &&
        decide (old.stopScanDate = none)) = false := by
      simp [hstop]
    rw [hc, if_neg (by simp)]
    have htr : truthyMsg none = false := rfl
    rw [htr, if_neg (by simp)]
    rw [← hstat]

/-- C2 witness: re-applying Completed (`2`) to the fixture scan that is
already Completed with a recorded stop date is a no-op on the record. -/
theorem c2_witness :
    applyStatus (sampleScan 2 (some 5)) 2 none 9 = sampleScan 2 (some 5) :=
  (c2_update_scan_status_amended (sampleState 2 (some 5)) 0 2 none 9 (sampleScan 2 (some 5))
      rfl).2.2 rfl (by decide) rfl

/-- C10. `update_scan_status` called with an `error_message` that is `None` or
the empty string (both falsy in Python) leaves the stored `error_message`
unchanged, so a recorded message cannot be cleared through a status update. -/
theorem c10_error_message_frame
    (st : SvcState) (scanId : Nat) (c : Int) (em : Option String) (now : Nat)
    (old : Scan) (st' : SvcState) (s' : Scan)
    (hfind : st.scans.find? (fun s => s.id = scanId) = some old)
    (hem : em = none ∨ em = some "")
    (hok : updateScanStatus st scanId c em now = .ok (st', s')) :
    s'.errorMessage = old.errorMessage := by
  have htr : truthyMsg em = false := by
    rcases hem with h | h <;> subst h <;> rfl
  unfold updateScanStatus at hok
  split at hok
  · simp at hok
  · rw [hfind] at hok
    simp only [Except.ok.injEq, Prod.mk.injEq] at hok
    obtain ⟨-, h2⟩ := hok
    subst h2
    exact applyStatus_errorMessage _ _ _ _ htr

/-- C10 witness: completing the running fixture scan with no error message
keeps its stored message (`"boom"`). -/
theorem c10_witness :
    (applyStatus (sampleScan 1 none) 2 none 9).errorMessage =
      (sampleScan 1 none).errorMessage :=
  c10_error_message_frame (sampleState 1 none) 0 2 none 9 (sampleScan 1 none) _ _ rfl
    (Or.inl rfl) rfl

/-- C7. `abort_scan` succeeds exactly from Pending (`-1`) or Running (`1`):
on success it sets status Aborted (`3`), records `aborted_by` and stamps
`stop_scan_date` with the current time, and requests cancellation of every
celery handle; otherwise it raises a validation error.  Per-handle
cancellation failures only show up in the logged-failures component — the
result visible to the caller is the same whatever the cancellation outcomes
are. -/
theorem c7_abort_scan
    (st : SvcState) (scanId user : Nat) (cancelOk : Nat → Bool) (now : Nat) (old : Scan)
    (hfind : st.scans.find? (fun s => s.id = scanId) = some old) :
    ((old.scanStatus = -1 ∨ old.scanStatus = 1) →
       abortScan st scanId user cancelOk now =
         .ok ({ st with
                scans := st.scans.map fun s =>
                  if s.id = scanId then
                    { old with
                      scanStatus := 3,
                      stopScanDate := some now,
                      abortedBy := some user }
                  else s },
              { old with
                scanStatus := 3,
                stopScanDate := some now,
                abortedBy := some user },
              old.celeryIds,
              old.celeryIds.filter fun h => !(cancelOk h))) ∧
    (¬(old.scanStatus = -1 ∨ old.scanStatus = 1) →
       abortScan st scanId user cancelOk now = .error .validation) ∧
    (∀ cancelOk' : Nat → Bool,
       (abortScan st scanId user cancelOk now).map (fun r => (r.1, r.2.1, r.2.2.1)) =
         (abortScan st scanId user cancelOk' now).map (fun r => (r.1, r.2.1, r.2.2.1))) := by
  refine ⟨?_, ?_, ?_⟩
  · intro hc
    have hb : (!(decide (old.scanStatus = -1) || decide (old.scanStatus = 1))) = false := by
      rcases hc with h | h <;> simp [h]
    unfold abortScan
    rw [hfind]
    dsimp only
    rw [hb, if_neg (by simp)]
  · intro hc
    push_neg at hc
    have hb : (!(decide (old.scanStatus = -1) || decide (old.scanStatus = 1))) = true := by
      simp [hc.1, hc.2]
    unfold abortScan
    rw [hfind]
    dsimp only
    rw [if_pos hb]
  · intro cancelOk'
    unfold abortScan
    rw [hfind]
    dsimp only
    split
    · rfl
    · rfl

/-- C7 witness: aborting the running fixture scan as user `9` at time `30`,
with every cancellation succeeding. -/
theorem c7_witness :
    abortScan (sampleState 1 none) 0 9 (fun _ => true) 30 =
      .ok ({ domains := [(1, none)],
             engines := [(1, ["subdomain_discovery", "port_scan"])],
             scans := [{ id := 0, domainId := 1, scanTypeId := 1, scanStatus := 3,
                         startScanDate := some 0, stopScanDate := some 30,
                         errorMessage := some "boom", initiatedBy := some 7,
                         abortedBy := some 9, celeryIds := [11, 12],
                         tasks := ["subdomain_discovery", "port_scan"] }],
             nextScanId := 1 },
           { id := 0, domainId := 1, scanTypeId := 1, scanStatus := 3,
             startScanDate := some 0, stopScanDate := some 30,
             errorMessage := some "boom", initiatedBy := some 7,
             abortedBy := some 9, celeryIds := [11, 12],
             tasks := ["subdomain_discovery", "port_scan"] },
           [11, 12], []) :=
  (c7_abort_scan (sampleState 1 none) 0 9 (fun _ => true) 30 (sampleScan 1 none) rfl).1
    (Or.inr rfl)

/-- C1 counterexample.  The "hence at most one scan per target is in
{Pending, Running} at any time" conclusion fails: `update_scan_status` can
return a Completed scan of a target to Running after `create_scan` has
already admitted a second scan of the same target, so a reachable state has
two non-terminal scans for target `1`. -/
theorem c1_counterexample :
    ∃ st, Reachable st ∧ 2 ≤ countNonTerminal st 1 := by
  have h0 := Reachable.init [(1, none)] [(1, ["subdomain_discovery"])]
  have h1 := Reachable.create 1 1 7 0 h0 rfl
  have h2 := Reachable.update 0 2 none 10 h1 rfl
  have h3 := Reachable.create 1 1 7 20 h2 rfl
  have h4 := Reachable.update 0 1 none 30 h3 rfl
  exact ⟨_, h4, by decide⟩

/-- C1 (amended).  `create_scan` itself behaves as claimed: with the domain
and engine present it rejects with a validation error exactly when some scan
of the target is Pending or Running, otherwise appends a fresh Pending scan;
and a successful `create_scan` preserves "at most one non-terminal scan per
target".  The claim's "at any time" conclusion is dropped: it is defeated by
`update_scan_status` re-opening terminal scans (see the counterexample). -/
theorem c1_create_scan_amended
    (st : SvcState) (d e u now : Nat)
    (hdom : (st.domains.find? fun p => p.1 = d).isSome)
    (heng : (st.engines.find? fun p => p.1 = e).isSome) :
    ((∃ s ∈ st.scans, s.domainId = d ∧ (s.scanStatus = -1 ∨ s.scanStatus = 1)) →
       createScan st d e u now = .error .validation) ∧
    ((∀ s ∈ st.scans, ¬(s.domainId = d ∧ (s.scanStatus = -1 ∨ s.scanStatus = 1))) →
       ∃ st' s', createScan st d e u now = .ok (st', s') ∧ s'.scanStatus = -1 ∧
         s'.domainId = d ∧ st'.scans = st.scans ++ [s']) ∧
    (∀ st' s', createScan st d e u now = .ok (st', s') →
       (∀ d', countNonTerminal st d' ≤ 1) → ∀ d', countNonTerminal st' d' ≤ 1) := by
  obtain ⟨dom, hdomeq⟩ := Option.isSome_iff_exists.mp hdom
  obtain ⟨eng, hengeq⟩ := Option.isSome_iff_exists.mp heng
  refine ⟨?_, ?_, ?_⟩
  · intro hex
    have hany : (st.scans.any fun s =>
        s.domainId = d && (s.scanStatus = -1 || s.scanStatus = 1)) = true := by
      rw [List.any_eq_true]
      obtain ⟨s, hs, h1, h2⟩ := hex
      refine ⟨s, hs, ?_⟩
      rcases h2 with h2 | h2 <;> simp [h1, h2]
    unfold createScan
    rw [hdomeq]
    dsimp only
    rw [hengeq]
    dsimp only
    rw [hany, if_pos rfl]
  · intro hnone
    have hany : (st.scans.any fun s =>
        s.domainId = d && (s.scanStatus = -1 || s.scanStatus = 1)) = false := by
      by_contra hcon
      rw [Bool.not_eq_false, List.any_eq_true] at hcon
      obtain ⟨s, hs, hp⟩ := hcon
      simp only [Bool.and_eq_true, Bool.or_eq_true, decide_eq_true_eq] at hp
      exact hnone s hs ⟨hp.1, hp.2⟩
    unfold createScan
    rw [hdomeq]
    dsimp only
    rw [hengeq]
    dsimp only
    rw [hany, if_neg (by simp)]
    exact ⟨_, _, rfl, rfl, rfl, rfl⟩
  · intro st' s' hok hinv d'
    obtain ⟨hsc, hstat, hsdom, hany⟩ := createScan_ok_inv hok
    rw [List.any_eq_false] at hany
    simp only [countNonTerminal, hsc, List.filter_append, List.length_append]
    by_cases hd : d' = d
    · subst hd
      have hf : (st.scans.filter fun s =>
          s.domainId = d' && (s.scanStatus = -1 || s.scanStatus = 1)) = [] := by
        rw [List.filter_eq_nil_iff]
        exact hany
      rw [hf]
      simp only [List.length_nil, Nat.zero_add]
      exact le_trans (List.length_filter_le _ _) (by simp)
    · have hf : ([s'].filter fun s =>
          s.domainId = d' && (s.scanStatus = -1 || s.scanStatus = 1)) = [] := by
        simp [List.filter, hsdom, Ne.symm hd]
      rw [hf]
      simpa [countNonTerminal] using hinv d'

/-- C1 witness: on the fixture with a Running scan of domain `1`, a second
`create_scan` for domain `1` is rejected; and on the fixture whose scan is
Completed, `create_scan` succeeds and the resulting state still has at most
one non-terminal scan of domain `1`. -/
theorem c1_witness :
    createScan (sampleState 1 none) 1 1 7 5 = .error .validation ∧
    countNonTerminal
      { domains := [(1, some 5)],
        engines := [(1, ["subdomain_discovery", "port_scan"])],
        scans := [sampleScan 2 (some 5),
                  { id := 1, domainId := 1, scanTypeId := 1, scanStatus := -1,
                    startScanDate := some 5, stopScanDate := none, errorMessage := none,
                    initiatedBy := some 7, abortedBy := none, celeryIds := [],
                    tasks := ["subdomain_discovery", "port_scan"] }],
        nextScanId := 2 } 1 ≤ 1 := by
  constructor
  · exact (c1_create_scan_amended (sampleState 1 none) 1 1 7 5 rfl rfl).1
      ⟨sampleScan 1 none, by decide, rfl, Or.inr rfl⟩
  · refine (c1_create_scan_amended (sampleState 2 (some 5)) 1 1 7 5 rfl rfl).2.2 _ _ rfl ?_ 1
    intro d'
    by_cases hd : d' = 1
    · subst hd
      decide
    · simp [countNonTerminal, sampleState, sampleScan, hd]

/-- C6 counterexample.  With one declared task `"a"` and two Completed
activity rows for the same step name, the code counts both rows: completed is
`2` (the claim's deduplicated count is `1`) and the percentage is `200`
(the claim would give `100`). -/
theorem c6_counterexample :
    computeProgress ["a"] [⟨"a", 2, 0⟩, ⟨"a", 2, 1⟩] = (1, 2, 200) ∧
    specDistinctCompleted [⟨"a", 2, 0⟩, ⟨"a", 2, 1⟩] = 1 := by
  constructor
  · have h : (computeProgress ["a"] [⟨"a", 2, 0⟩, ⟨"a", 2, 1⟩]).2.2 = 200 := by
      norm_num [computeProgress, round2, roundHalfEven]
    refine Prod.ext rfl (Prod.ext rfl ?_)
    exact h
  · decide

/-- C6 (amended).  The progress block of `get_scan_details` reports
`total = len(scan.tasks)` and `completed` = the raw count of Completed
activity rows (duplicate step names counted each time, so the deduplicated
count of the claim is only a lower bound), and `percentage = 0` when `total`
is `0`, else `completed / total * 100` rounded to two decimals — which can
exceed `100` when completions repeat. -/
theorem c6_progress_amended (tasks : List String) (activities : List ScanActivity) :
    computeProgress tasks activities =
      (tasks.length,
       (activities.filter fun a => a.status = 2).length,
       round2 (if tasks.length > 0 then
           ((activities.filter fun a => a.status = 2).length : ℚ) / (tasks.length : ℚ) * 100
         else 0)) ∧
    specDistinctCompleted activities ≤ (activities.filter fun a => a.status = 2).length := by
  constructor
  · rfl
  · calc ((activities.filter fun a => a.status = 2).map fun a => a.name).dedup.length
        ≤ ((activities.filter fun a => a.status = 2).map fun a => a.name).length :=
          (List.dedup_sublist _).length_le
      _ = (activities.filter fun a => a.status = 2).length := List.length_map _ _

/-- Outcome of one `requests.post` attempt inside `send_webhook`: an HTTP
response with its status code, or a `requests.exceptions.RequestException`
(connection failure, timeout, ...). -/
inductive AttemptOutcome where
  | http (status : Nat)
  | transportError
  deriving Repr, DecidableEq

/-- The status codes `send_webhook` treats as success (line 91). -/
def successCodes : List Nat := [200, 201, 202, 204]

/-- Whether an attempt outcome makes `send_webhook` return `True`. -/
def isSuccessOutcome : AttemptOutcome → Bool
  | .http code => decide (code ∈ successCodes)
  | .transportError => false

/-- What `send_webhook` did: number of POSTs performed, the sleeps executed
between attempts (in seconds, in order), the returned boolean, and the
delivery-log entry written at the end (`success`, HTTP status). -/
structure SendResult where
  attemptsMade : Nat
  sleeps : List Nat
  success : Bool
  logEntry : Bool × Option Nat
  deriving Repr, DecidableEq

/-- The retry loop of `WebhookManager.send_webhook` (webhook_manager.py lines
82–109): `for attempt in range(max_retries)`: POST; on a status in
`successCodes` log success and return `True`; on any other HTTP status just
continue (no sleep); on a transport error sleep `retry_delay * (attempt + 1)`
seconds unless this was the last attempt.  After the loop, log a failure and
return `False`.  `remaining` is the fuel `max_retries - attempt`; `made` and
`sleeps` are accumulators (sleeps newest-first, reversed on exit). -/
def sendLoop (respond : Nat → AttemptOutcome) (maxRetries retryDelay : Nat) :
    Nat → Nat → Nat → List Nat → SendResult
  | 0, _, made, sleeps => ⟨made, sleeps.reverse, false, (false, none)⟩
  | remaining + 1, attempt, made, sleeps =>
    match respond attempt with
    | .http code =>
        if code ∈ successCodes then
          ⟨made + 1, sleeps.reverse, true, (true, some code)⟩
        else
          sendLoop respond maxRetries retryDelay remaining (attempt + 1) (made + 1) sleeps
    | .transportError =>
        if attempt < maxRetries - 1 then
          sendLoop respond maxRetries retryDelay remaining (attempt + 1) (made + 1)
            (retryDelay * (attempt + 1) :: sleeps)
        else
          sendLoop respond maxRetries retryDelay remaining (attempt + 1) (made + 1) sleeps

/-- `WebhookManager.send_webhook`'s delivery loop with the constructor
defaults of `WebhookManager.__init__` (lines 33–36): `max_retries = 3`,
`retry_delay = 5`.  `respond n` is what the endpoint does with the `n`-th
POST (0-based). -/
def sendWebhook (respond : Nat → AttemptOutcome) : SendResult :=
  sendLoop respond 3 5 3 0 0 []

/-- C3 counterexample.  An endpoint that always answers HTTP 500 receives
exactly `max_retries = 3` POSTs — not the claimed `max_retries + 1 = 4` —
with no sleep between them (sleeps happen only after transport errors), and
the delivery is then logged as failed. -/
theorem c3_counterexample :
    (sendWebhook fun _ => .http 500).attemptsMade = 3 ∧
    (sendWebhook fun _ => .http 500).sleeps = [] ∧
    (sendWebhook fun _ => .http 500).success = false := by
  decide

/-- C3 (amended).  If none of the first three attempts succeeds, the endpoint
receives exactly `max_retries = 3` POSTs, the delivery returns `False` and is
logged as failed (and never retried again); sleeps occur only after the
transport-error attempts among the first two, with the linearly growing
duration `retry_delay * (attempt + 1)`. -/
theorem c3_send_webhook_amended (respond : Nat → AttemptOutcome)
    (hfail : ∀ i < 3, isSuccessOutcome (respond i) = false) :
    (sendWebhook respond).attemptsMade = 3 ∧
    (sendWebhook respond).success = false ∧
    (sendWebhook respond).logEntry = (false, none) ∧
    (sendWebhook respond).sleeps =
      (if respond 0 = .transportError then [5] else []) ++
      (if respond 1 = .transportError then [10] else []) := by
  have e0 := hfail 0 (by omega)
  have e1 := hfail 1 (by omega)
  have e2 := hfail 2 (by omega)
  rcases h0 : respond 0 with c0 | _ <;> rcases h1 : respond 1 with c1 | _ <;>
    rcases h2 : respond 2 with c2 | _ <;>
      rw [h0] at e0 <;> rw [h1] at e1 <;> rw [h2] at e2 <;>
        simp only [isSuccessOutcome, decide_eq_false_iff_not] at e0 e1 e2 <;>
          simp [sendWebhook, sendLoop, h0, h1, h2, e0, e1, e2]

/-- C3 witness: the always-HTTP-500 endpoint, instantiating the amended
theorem. -/
theorem c3_witness :
    (sendWebhook fun _ => .http 500).attemptsMade = 3 ∧
    (sendWebhook fun _ => .http 500).success = false ∧
    (sendWebhook fun _ => .http 500).logEntry = (false, none) ∧
    (sendWebhook fun _ => .http 500).sleeps =
      (if (fun _ => AttemptOutcome.http 500) 0 = .transportError then [5] else []) ++
      (if (fun _ => AttemptOutcome.http 500) 1 = .transportError then [10] else []) :=
  c3_send_webhook_amended (fun _ => .http 500) (by decide)

/-- A webhook subscription as stored by `WebhookSubscription.add_subscription`
(webhook_manager.py lines 209–247).  The source's `id` is `md5(url)`; since
only equality of urls is ever consulted, the id is not modelled separately. -/
structure Subscription where
  url : String
  events : List String
  secret : Option String
  active : Bool
  createdAt : Nat
  deriving Repr, DecidableEq

/-- The Django cache keyed by `webhook_subscriptions:<event>`, as an
association list from event name to subscription list. -/
def SubStore : Type := List (String × List Subscription)

/-- `WebhookSubscription.get_subscriptions`: `cache.get(key, [])` — first
entry for the key, defaulting to the empty list. -/
def getSubscriptions (store : SubStore) (event : String) : List Subscription :=
  match store with
  | [] => []
  | p :: rest => if p.1 = event then p.2 else getSubscriptions rest event

/-- `cache.set(key, subs)`: replace the entry for `event`, or add one. -/
def setSubscriptions (store : SubStore) (event : String) (subs : List Subscription) :
    SubStore :=
  match store with
  | [] => [(event, subs)]
  | p :: rest =>
      if p.1 = event then (event, subs) :: rest
      else p :: setSubscriptions rest event subs

/-- `WebhookSubscription.add_subscription`: build the subscription record and,
for each named event, append it to that event's list unless a subscription
with the same url is already there. -/
def addSubscription (store : SubStore) (url : String) (events : List String)
    (secret : Option String) (active : Bool) (now : Nat) : SubStore × Subscription :=
  let sub : Subscription :=
    { url := url, events := events, secret := secret, active := active, createdAt := now }
  let store' := events.foldl (fun acc event =>
    let subs := getSubscriptions acc event
    if subs.any fun s => s.url = url then acc
    else setSubscriptions acc event (subs ++ [sub])) store
  (store', sub)

/-- The six event names of the `WebhookEvent` class (lines 20–27), the list
`remove_subscription` iterates when no event is named. -/
def webhookEventNames : List String :=
  ["scan.started", "scan.completed", "scan.failed",
   "subdomain.discovered", "vulnerability.found", "target.added"]

/-- The per-event loop of `WebhookSubscription.remove_subscription`: for each
event, drop the url's entries from that event's cached list and store it
back. -/
def removeFromEvents (url : String) : SubStore → List String → SubStore
  | store, [] => store
  | store, evt :: rest =>
      removeFromEvents url
        (setSubscriptions store evt
          ((getSubscriptions store evt).filter fun sub => sub.url ≠ url))
        rest

/-- `WebhookSubscription.remove_subscription` (lines 249–275): with an event
given, clean only that event; with `None`, iterate over the six
`WebhookEvent` constants — and only those. -/
def removeSubscription (store : SubStore) (url : String) (event : Option String) :
    SubStore :=
  match event with
  | some e => removeFromEvents url store [e]
  | none => removeFromEvents url store webhookEventNames

lemma getSubscriptions_set_same (store : SubStore) (e : String)
    (subs : List Subscription) :
    getSubscriptions (setSubscriptions store e subs) e = subs := by
  induction store with
  | nil => simp [getSubscriptions, setSubscriptions]
  | cons p rest ih =>
      by_cases hp : p.1 = e
      · rw [setSubscriptions, if_pos hp]
        simp [getSubscriptions]
      · rw [setSubscriptions, if_neg hp]
        rw [getSubscriptions, if_neg hp]
        exact ih

lemma getSubscriptions_set_other (store : SubStore) (e e' : String)
    (subs : List Subscription) (h : e' ≠ e) :
    getSubscriptions (setSubscriptions store e subs) e' = getSubscriptions store e' := by
  induction store with
  | nil =>
      simp [setSubscriptions, getSubscriptions, Ne.symm h]
  | cons p rest ih =>
      by_cases hp : p.1 = e
      · rw [setSubscriptions, if_pos hp]
        rw [getSubscriptions, if_neg (by simpa using h.symm)]
        rw [getSubscriptions, if_neg (by rw [hp]; simpa using h.symm)]
      · rw [setSubscriptions, if_neg hp]
        rw [getSubscriptions]
        rw [getSubscriptions]
        by_cases hp' : p.1 = e'
        · rw [if_pos hp', if_pos hp']
        · rw [if_neg hp', if_neg hp']
          exact ih

lemma getSubscriptions_removeFromEvents (events : List String) (store : SubStore)
    (url : String) (e : String) :
    getSubscriptions (removeFromEvents url store events) e =
      if e ∈ events then (getSubscriptions store e).filter (fun sub => sub.url ≠ url)
      else getSubscriptions store e := by
  induction events generalizing store with
  | nil => simp [removeFromEvents]
  | cons evt rest ih =>
      rw [removeFromEvents]
      rw [ih]
      by_cases he : e = evt
      · subst he
        rw [getSubscriptions_set_same]
        by_cases hr : e ∈ rest
        · rw [if_pos hr, if_pos (List.mem_cons_self e rest)]
          rw [List.filter_filter]
          simp
        · rw [if_neg hr, if_pos (List.mem_cons_self e rest)]
      · rw [getSubscriptions_set_other store evt e _ he]
        by_cases hr : e ∈ rest
        · rw [if_pos hr, if_pos (List.mem_cons_of_mem evt hr)]
        · rw [if_neg hr, if_neg (by simp [he, hr])]

/-- C8 counterexample.  A subscription registered under an event name outside
the six `WebhookEvent` constants (here `"custom.event"`) survives
`remove_subscription(url, None)`: the all-events removal iterates only the
six predefined names, so afterwards that event's list still contains the
url. -/
theorem c8_counterexample :
    getSubscriptions
      (removeSubscription (addSubscription [] "http://x" ["custom.event"] none true 0).1
        "http://x" none) "custom.event" =
      [{ url := "http://x", events := ["custom.event"], secret := none, active := true,
         createdAt := 0 }] := by
  decide

/-- C8 (amended).  `remove_subscription(url, None)` removes the url's
subscriptions from each of the six predefined `WebhookEvent` lists — after it,
no predefined event's list contains an entry for the url — while the list of
any event name outside those six is left exactly as it was. -/
theorem c8_remove_subscription_amended (store : SubStore) (url : String) :
    (∀ e, getSubscriptions (removeSubscription store url none) e =
       if e ∈ webhookEventNames then
         (getSubscriptions store e).filter fun sub => sub.url ≠ url
       else getSubscriptions store e) ∧
    (∀ e ∈ webhookEventNames,
       ∀ sub ∈ getSubscriptions (removeSubscription store url none) e, sub.url ≠ url) := by
  have hrm : removeSubscription store url none = removeFromEvents url store webhookEventNames :=
    rfl
  refine ⟨fun e => ?_, fun e he sub hsub => ?_⟩
  · rw [hrm]
    exact getSubscriptions_removeFromEvents webhookEventNames store url e
  · rw [hrm] at hsub
    rw [getSubscriptions_removeFromEvents webhookEventNames store url e, if_pos he] at hsub
    exact of_decide_eq_true (List.mem_filter.mp hsub).2

/-- C8 witness: with `"http://x"` and `"http://y"` both subscribed to
`scan.started`, removing `"http://x"` from all events leaves exactly the
`"http://y"` subscription there, and that surviving entry's url differs from
the removed one. -/
theorem c8_witness :
    (getSubscriptions
        (removeSubscription
          (addSubscription (addSubscription [] "http://x" ["scan.started"] none true 0).1
            "http://y" ["scan.started"] none true 1).1
          "http://x" none) "scan.started" =
      if "scan.started" ∈ webhookEventNames then
        (getSubscriptions
            (addSubscription (addSubscription [] "http://x" ["scan.started"] none true 0).1
              "http://y" ["scan.started"] none true 1).1 "scan.started").filter
          fun sub => sub.url ≠ "http://x"
      else
        getSubscriptions
          (addSubscription (addSubscription [] "http://x" ["scan.started"] none true 0).1
            "http://y" ["scan.started"] none true 1).1 "scan.started") ∧
    ({ url := "http://y", events := ["scan.started"], secret := none, active := true,
       createdAt := 1 } : Subscription).url ≠ "http://x" :=
  ⟨(c8_remove_subscription_amended
      (addSubscription (addSubscription [] "http://x" ["scan.started"] none true 0).1
        "http://y" ["scan.started"] none true 1).1 "http://x").1 "scan.started",
   (c8_remove_subscription_amended
      (addSubscription (addSubscription [] "http://x" ["scan.started"] none true 0).1
        "http://y" ["scan.started"] none true 1).1 "http://x").2 "scan.started"
     (by decide) _ (by decide)⟩

/-!  SHA-256 (FIPS 180-4) and HMAC-SHA256 (RFC 2104): the primitives behind
`hashlib.sha256` and `hmac.new(secret, payload, hashlib.sha256)` that
`_generate_signature` and `verify_signature` call.  Bytes are `Nat` values
below 256; words are `Nat` values kept below `2^32` by reducing after each
addition. -/

/-- Right rotation of a 32-bit word. -/
def rotr (n x : Nat) : Nat := (x >>> n ||| x <<< (32 - n)) % 4294967296

/-- Addition modulo `2^32`. -/
def add32 (a b : Nat) : Nat := (a + b) % 4294967296

def bigSigma0 (x : Nat) : Nat := rotr 2 x ^^^ rotr 13 x ^^^ rotr 22 x

def bigSigma1 (x : Nat) : Nat := rotr 6 x ^^^ rotr 11 x ^^^ rotr 25 x

def smallSigma0 (x : Nat) : Nat := rotr 7 x ^^^ rotr 18 x ^^^ (x >>> 3)

def smallSigma1 (x : Nat) : Nat := rotr 17 x ^^^ rotr 19 x ^^^ (x >>> 10)

/-- `Ch(x, y, z)`; the complement of `x` is taken within 32 bits. -/
def chf (x y z : Nat) : Nat := (x &&& y) ^^^ ((x ^^^ 4294967295) &&& z)

def majf (x y z : Nat) : Nat := (x &&& y) ^^^ (x &&& z) ^^^ (y &&& z)

/-- The 64 SHA-256 round constants. -/
def kConstants : List Nat :=
  [1116352408, 1899447441, 3049323471, 3921009573, 961987163,
   1508970993, 2453635748, 2870763221, 3624381080, 310598401,
   607225278, 1426881987, 1925078388, 2162078206, 2614888103,
   3248222580, 3835390401, 4022224774, 264347078, 604807628,
   770255983, 1249150122, 1555081692, 1996064986, 2554220882,
   2821834349, 2952996808, 3210313671, 3336571891, 3584528711,
   113926993, 338241895, 666307205, 773529912, 1294757372,
   1396182291, 1695183700, 1986661051, 2177026350, 2456956037,
   2730485921, 2820302411, 3259730800, 3345764771, 3516065817,
   3600352804, 4094571909, 275423344, 430227734, 506948616,
   659060556, 883997877, 958139571, 1322822218, 1537002063,
   1747873779, 1955562222, 2024104815, 2227730452, 2361852424,
   2428436474, 2756734187, 3204031479, 3329325298]

/-- The eight working variables of the compression function. -/
structure HState where
  a : Nat
  b : Nat
  c : Nat
  d : Nat
  e : Nat
  f : Nat
  g : Nat
  hh : Nat
  deriving Repr, DecidableEq

/-- The SHA-256 initial hash value. -/
def initH : HState :=
  { a := 1779033703, b := 3144134277, c := 1013904242, d := 2773480762,
    e := 1359893119, f := 2600822924, g := 528734635, hh := 1541459225 }

/-- Big-endian 32-bit words from bytes (four at a time). -/
def toWords : List Nat → List Nat
  | b0 :: b1 :: b2 :: b3 :: rest =>
      (((b0 * 256 + b1) * 256 + b2) * 256 + b3) :: toWords rest
  | _ => []

/-- One step of the message-schedule extension; `acc` holds the words already
produced, newest first, so `w[i-2]`, `w[i-7]`, `w[i-15]`, `w[i-16]` are at
positions 1, 6, 14, 15. -/
def schedNext (acc : List Nat) : Nat :=
  add32 (add32 (smallSigma1 (acc.getD 1 0)) (acc.getD 6 0))
    (add32 (smallSigma0 (acc.getD 14 0)) (acc.getD 15 0))

/-- Extend the schedule by `n` further words; the result is oldest-first. -/
def extendSchedule : Nat → List Nat → List Nat
  | 0, acc => acc.reverse
  | n + 1, acc => extendSchedule n (schedNext acc :: acc)

/-- One compression round, consuming a `(k, w)` pair. -/
def shaRound (st : HState) (kw : Nat × Nat) : HState :=
  let t1 := add32 st.hh (add32 (bigSigma1 st.e)
    (add32 (chf st.e st.f st.g) (add32 kw.1 kw.2)))
  let t2 := add32 (bigSigma0 st.a) (majf st.a st.b st.c)
  { a := add32 t1 t2, b := st.a, c := st.b, d := st.c,
    e := add32 st.d t1, f := st.e, g := st.f, hh := st.g }

/-- Compress one 64-byte block into the running hash. -/
def compress (h : HState) (block : List Nat) : HState :=
  let w := extendSchedule 48 (toWords block).reverse
  let st := (kConstants.zip w).foldl shaRound h
  { a := add32 h.a st.a, b := add32 h.b st.b, c := add32 h.c st.c,
    d := add32 h.d st.d, e := add32 h.e st.e, f := add32 h.f st.f,
    g := add32 h.g st.g, hh := add32 h.hh st.hh }

/-- The 8-byte big-endian encoding of the bit length. -/
def lengthBytes (n : Nat) : List Nat :=
  [n / 2 ^ 56 % 256, n / 2 ^ 48 % 256, n / 2 ^ 40 % 256, n / 2 ^ 32 % 256,
   n / 2 ^ 24 % 256, n / 2 ^ 16 % 256, n / 2 ^ 8 % 256, n % 256]

/-- SHA-256 padding: `0x80`, zeros to 56 mod 64, then the 64-bit bit-length. -/
def padMessage (msg : List Nat) : List Nat :=
  msg ++ 128 :: List.replicate ((64 - (msg.length + 9) % 64) % 64) 0 ++
    lengthBytes (msg.length * 8)

/-- Fold `compress` over the 64-byte blocks; `n` is the number of blocks. -/
def processBlocks : Nat → HState → List Nat → HState
  | 0, h, _ => h
  | n + 1, h, msg => processBlocks n (compress h (msg.take 64)) (msg.drop 64)

/-- The four big-endian bytes of a 32-bit word. -/
def wordBytes (w : Nat) : List Nat :=
  [w / 2 ^ 24 % 256, w / 2 ^ 16 % 256, w / 2 ^ 8 % 256, w % 256]

/-- SHA-256 of a byte string, as its 32 digest bytes. -/
def sha256 (msg : List Nat) : List Nat :=
  let padded := padMessage msg
  let h := processBlocks (padded.length / 64) initH padded
  wordBytes h.a ++ wordBytes h.b ++ wordBytes h.c ++ wordBytes h.d ++
    wordBytes h.e ++ wordBytes h.f ++ wordBytes h.g ++ wordBytes h.hh

/-- HMAC-SHA256 with the standard 64-byte block size: what
`hmac.new(secret, payload, hashlib.sha256).digest()` computes. -/
def hmacSha256 (key msg : List Nat) : List Nat :=
  let key1 := if key.length > 64 then sha256 key else key
  let keyPadded := key1 ++ List.replicate (64 - key1.length) 0
  let ipadKey := keyPadded.map fun b => b ^^^ 54
  let opadKey := keyPadded.map fun b => b ^^^ 92
  sha256 (opadKey ++ sha256 (ipadKey ++ msg))

/-- The 16 lowercase hex digits. -/
def hexChars : List Char := "0123456789abcdef".toList

/-- Hex digit of a nibble. -/
def hexChar (n : Nat) : Char := hexChars.getD (n % 16) '0'

/-- `.hexdigest()`: two lowercase hex digits per byte. -/
def hexOfBytes : List Nat → List Char
  | [] => []
  | b :: rest => hexChar (b / 16) :: hexChar (b % 16) :: hexOfBytes rest

/-- The seven characters of the `'sha256='` marker. -/
def sigTag : List Char := ['s', 'h', 'a', '2', '5', '6', '=']

/-- `WebhookManager._generate_signature` (webhook_manager.py lines 111–129)
applied to the serialized payload: the payload dict is first encoded as
`json.dumps(payload, sort_keys=True).encode('utf-8')`; `payloadBytes` is that
byte string.  Returns `'sha256=' + hexdigest`. -/
def generateSignature (payloadBytes secret : List Nat) : List Char :=
  sigTag ++ hexOfBytes (hmacSha256 secret payloadBytes)

/-- `WebhookManager.verify_signature` (lines 131–153): recompute the HMAC hex
digest of the payload bytes, strip a leading `'sha256='` from the supplied
signature if present, and compare (`hmac.compare_digest`, i.e. equality). -/
def verifySignature (payloadBytes : List Nat) (signature : List Char)
    (secret : List Nat) : Bool :=
  let expected := hexOfBytes (hmacSha256 secret payloadBytes)
  let sig := if signature.take 7 = sigTag then signature.drop 7 else signature
  sig == expected

/-- Verification of any signature produced by `generateSignature` compares
the two hex digests: the `'sha256='` marker is stripped and the digests are
compared for equality. -/
lemma tag_append_take (l : List Char) : (sigTag ++ l).take 7 = sigTag := by
  simp [sigTag]

lemma tag_append_drop (l : List Char) : (sigTag ++ l).drop 7 = l := by
  simp [sigTag]

lemma verify_generate (p q s : List Nat) :
    verifySignature q (generateSignature p s) s =
      (hexOfBytes (hmacSha256 s p) == hexOfBytes (hmacSha256 s q)) := by
  unfold verifySignature generateSignature
  rw [if_pos (tag_append_take _), tag_append_drop]

lemma getD_eq_get {α : Type} : ∀ (l : List α) (n : Nat) (d : α) (h : n < l.length),
    l.getD n d = l.get ⟨n, h⟩ := by
  intro l
  induction l with
  | nil => intro n d h; simp at h
  | cons x xs ih =>
      intro n d h
      cases n with
      | zero => rfl
      | succ m => exact ih m d (by simpa using h)

lemma getD_lt_of_all {l : List Nat} (hl : ∀ b ∈ l, b < 256) (n : Nat) :
    l.getD n 0 < 256 := by
  induction l generalizing n with
  | nil => simp [List.getD]
  | cons x xs ih =>
      cases n with
      | zero => exact hl x (List.mem_cons_self x xs)
      | succ m => exact ih (fun b hb => hl b (List.mem_cons_of_mem x hb)) m

lemma wordBytes_lt (w : Nat) : ∀ b ∈ wordBytes w, b < 256 := by
  intro b hb
  simp only [wordBytes, List.mem_cons, List.not_mem_nil, or_false] at hb
  rcases hb with rfl | rfl | rfl | rfl <;> exact Nat.mod_lt _ (by norm_num)

lemma sha256_length (msg : List Nat) : (sha256 msg).length = 32 := by
  simp [sha256, wordBytes]

lemma sha256_lt (msg : List Nat) : ∀ b ∈ sha256 msg, b < 256 := by
  intro b hb
  simp only [sha256, List.mem_append] at hb
  rcases hb with ((((((h | h) | h) | h) | h) | h) | h) | h <;>
    exact wordBytes_lt _ _ h

lemma hmacSha256_length (key msg : List Nat) : (hmacSha256 key msg).length = 32 :=
  sha256_length _

lemma hmacSha256_lt (key msg : List Nat) : ∀ b ∈ hmacSha256 key msg, b < 256 :=
  sha256_lt _

lemma hexChar_mem (n : Nat) : hexChar n ∈ hexChars := by
  unfold hexChar
  have h : n % 16 < hexChars.length := by
    have : n % 16 < 16 := Nat.mod_lt _ (by norm_num)
    simpa [hexChars] using this
  rw [getD_eq_get _ _ _ h]
  exact List.get_mem _ _ _

lemma hexChar_ne_s (n : Nat) : hexChar n ≠ 's' := by
  intro he
  have hm := hexChar_mem n
  rw [he] at hm
  exact absurd hm (by decide)

lemma hexOfBytes_take_ne_tag (bytes : List Nat) (hb : bytes ≠ []) :
    (hexOfBytes bytes).take 7 ≠ sigTag := by
  cases bytes with
  | nil => exact absurd rfl hb
  | cons b rest =>
      rw [hexOfBytes]
      intro he
      have hh : hexChar (b / 16) = 's' := by
        have := congrArg List.head? he
        simpa [sigTag] using this
      exact hexChar_ne_s _ hh

/-- Byte strings of bounded length from numbers, little-endian base 256. -/
def natToBytes : Nat → Nat → List Nat
  | _, 0 => []
  | n, len + 1 => n % 256 :: natToBytes (n / 256) len

lemma natToBytes_length (n len : Nat) : (natToBytes n len).length = len := by
  induction len generalizing n with
  | zero => rfl
  | succ m ih => simp [natToBytes, ih]

lemma natToBytes_inj (len : Nat) : ∀ m n, m < 256 ^ len → n < 256 ^ len →
    natToBytes m len = natToBytes n len → m = n := by
  induction len with
  | zero =>
      intro m n hm hn _
      simp at hm hn
      omega
  | succ len ih =>
      intro m n hm hn he
      simp only [natToBytes, List.cons.injEq] at he
      have hm' : m / 256 < 256 ^ len := by
        rw [Nat.div_lt_iff_lt_mul (by norm_num)]
        calc m < 256 ^ (len + 1) := hm
          _ = 256 ^ len * 256 := by rw [Nat.pow_succ]
      have hn' : n / 256 < 256 ^ len := by
        rw [Nat.div_lt_iff_lt_mul (by norm_num)]
        calc n < 256 ^ (len + 1) := hn
          _ = 256 ^ len * 256 := by rw [Nat.pow_succ]
      have h2 := ih (m / 256) (n / 256) hm' hn' he.2
      omega

/-- C4 (amended).  The signature round-trips: verifying the signature
produced for a payload with the same secret always succeeds; and for any
other payload, verification against that signature succeeds exactly when the
two payloads' HMAC-SHA256 hex digests coincide — so a mutation is rejected
precisely when it changes the digest, not unconditionally. -/
theorem c4_signature_amended (p q s : List Nat) :
    verifySignature p (generateSignature p s) s = true ∧
    (verifySignature q (generateSignature p s) s = true ↔
      hexOfBytes (hmacSha256 s q) = hexOfBytes (hmacSha256 s p)) := by
  constructor
  · rw [verify_generate]
    exact beq_self_eq_true _
  · rw [verify_generate]
    exact ⟨fun h => (beq_iff_eq.mp h).symm, fun h => beq_iff_eq.mpr h.symm⟩

/-- C4 counterexample.  The claim "verification returns false for every
payload differing in at least one byte from the signed payload" is false for
the real HMAC-SHA256: by pigeonhole, among the `256^33` byte strings of
length 33 two distinct ones share a 32-byte digest under the secret `[115]`,
and the second then verifies against the first one's signature. -/
theorem c4_counterexample :
    ¬ (∀ p q : List Nat, p.length = q.length → p ≠ q →
        verifySignature q (generateSignature p [115]) [115] = false) := by
  intro hclaim
  have hbound : ∀ (i : Fin (256 ^ 33)) (k : Fin 32),
      (hmacSha256 [115] (natToBytes i.1 33)).getD k.1 0 < 256 :=
    fun i k => getD_lt_of_all (hmacSha256_lt [115] (natToBytes i.1 33)) k.1
  have hcard : Fintype.card (Fin 32 → Fin 256) < Fintype.card (Fin (256 ^ 33)) := by
    rw [Fintype.card_fun, Fintype.card_fin, Fintype.card_fin, Fintype.card_fin]
    exact Nat.pow_lt_pow_right (by norm_num) (by norm_num)
  obtain ⟨i, j, hij, hgij⟩ := Fintype.exists_ne_map_eq_of_card_lt
    (fun (i : Fin (256 ^ 33)) (k : Fin 32) =>
      (⟨(hmacSha256 [115] (natToBytes i.1 33)).getD k.1 0, hbound i k⟩ : Fin 256)) hcard
  have hdig : hmacSha256 [115] (natToBytes i.1 33) = hmacSha256 [115] (natToBytes j.1 33) := by
    apply List.ext_get
    · rw [hmacSha256_length, hmacSha256_length]
    · intro n h1 h2
      have hn : n < 32 := by
        rw [hmacSha256_length] at h1
        exact h1
      have h3 := congrArg Fin.val (congrFun hgij ⟨n, hn⟩)
      dsimp only at h3
      rw [getD_eq_get _ _ _ h1, getD_eq_get _ _ _ h2] at h3
      exact h3
  have hneq : natToBytes i.1 33 ≠ natToBytes j.1 33 := fun he =>
    hij (Fin.ext (natToBytes_inj 33 i.1 j.1 i.2 j.2 he))
  have hlen : (natToBytes i.1 33).length = (natToBytes j.1 33).length := by
    rw [natToBytes_length, natToBytes_length]
  have hfalse := hclaim (natToBytes i.1 33) (natToBytes j.1 33) hlen hneq
  have htrue : verifySignature (natToBytes j.1 33)
      (generateSignature (natToBytes i.1 33) [115]) [115] = true := by
    rw [verify_generate, hdig]
    exact beq_self_eq_true _
  rw [hfalse] at htrue
  exact Bool.false_ne_true htrue

/-- C9.  `verify_signature` accepts both the prefixed and the bare form of a
correct signature: the `'sha256='` marker is stripped when present, and a
bare hex digest never starts with the marker (its first character is a hex
digit, never `'s'`), so both compare equal to the recomputed digest. -/
theorem c9_signature_tag_optional (p s : List Nat) :
    verifySignature p (generateSignature p s) s = true ∧
    verifySignature p (hexOfBytes (hmacSha256 s p)) s = true := by
  constructor
  · rw [verify_generate]
    exact beq_self_eq_true _
  · have hne : (hexOfBytes (hmacSha256 s p)).take 7 ≠ sigTag := by
      apply hexOfBytes_take_ne_tag
      intro he
      have := hmacSha256_length s p
      rw [he] at this
      simp at this
    unfold verifySignature
    rw [if_neg hne]
    exact beq_self_eq_true _

end ReconPoint
